import Mathlib

/-!
Shallow embedding of the `detection_agent` package: the detectors
(`FileDetector`, `ProcessDetector`), the coordinator (`Detector`,
a registry over polymorphic `BaseDetector` values) and the
`DetectionAgent` scheduler/dispatcher, with theorems checking the
specification's claims against this embedding.

The filesystem is modelled abstractly: a map from path to a node
(regular file, or directory with a recursive-walk result list) together
with a total modification-time function.  Python dicts are modelled as
association lists with insert-or-overwrite-in-place semantics, which
preserves both lookup behaviour and iteration order.  A Python
`try/except` around a call is modelled by matching on an `Except`
result: `.error` is the call raising, and the `match` is the boundary
that converts it instead of propagating.
-/

namespace DetectionAgentModel

/-- One detection result record.  The Python code builds dictionaries with a
`type` discriminator field; the three shapes that occur are the three
constructors (`file_change`, `process_check`, `detection_error`). -/
inductive Event where
  | fileChange (path : String) (timestamp : Nat) (action : String)
  | processCheck (timestamp : Nat) (message : String)
  | detectionError (detector : String) (error : String) (timestamp : Nat)
deriving DecidableEq

/-- A filesystem node: a regular file, or a directory whose recursive
`os.walk` enumerates the given file paths (in walk order). -/
inductive Node where
  | file : Node
  | dir (files : List String) : Node

/-- Abstract filesystem state: `node p = none` means the path does not
exist (`os.path.exists` is false); `mtime` is `os.path.getmtime`, total
here since the code only queries it on paths it has just observed. -/
structure FS where
  node : String → Option Node
  mtime : String → Nat

/-- The FileDetector's `_file_cache` dict: path → last observed mtime. -/
def Cache := List (String × Nat)

/-- Dict lookup (first binding wins; bindings are unique by construction). -/
def cacheLookup : List (String × Nat) → String → Option Nat
  | [], _ => none
  | (k, v) :: rest, p => if k = p then some v else cacheLookup rest p

/-- Dict assignment `d[k] = v`: overwrite in place if present, else append
(Python dicts preserve insertion order and keep the original position on
overwrite). -/
def cacheInsert : List (String × Nat) → String → Nat → List (String × Nat)
  | [], k, v => [(k, v)]
  | (k', v') :: rest, k, v =>
      if k' = k then (k, v) :: rest else (k', v') :: cacheInsert rest k v

theorem cacheLookup_cacheInsert (c : List (String × Nat)) (k v p) :
    cacheLookup (cacheInsert c k v) p =
      if k = p then some v else cacheLookup c p := by
  induction c with
  | nil => simp [cacheInsert, cacheLookup]
  | cons hd tl ih =>
      obtain ⟨k', v'⟩ := hd
      by_cases hk : k' = k
      · subst hk
        by_cases hp : k' = p
        · simp [cacheInsert, cacheLookup, hp]
        · simp [cacheInsert, cacheLookup, hp]
      · simp only [cacheInsert, if_neg hk, cacheLookup, ih]
        by_cases hp : k' = p
        · subst hp
          simp only [if_pos rfl]
          exact (if_neg (fun h => hk (Eq.symm h))).symm
        · simp [if_neg hp]

/-- `FileDetector` state (`detector.py`, class `FileDetector`): the shared
base-class fields (`name`, `enabled`, `last_detection_time`) plus the watch
paths and the mtime cache. -/
structure FileDetector where
  name : String
  enabled : Bool
  last_detection_time : Option Nat
  watch_paths : List String
  file_cache : List (String × Nat)

/-- `FileDetector._initialize_cache`: record the mtime of every watch file
and of every file found by recursively walking watch directories.  (No
existence re-check inside the walk, exactly as in the source.) -/
def initialize_cache (fs : FS) (watch_paths : List String) : List (String × Nat) :=
  watch_paths.foldl
    (fun c p =>
      match fs.node p with
      | none => c
      | some Node.file => cacheInsert c p (fs.mtime p)
      | some (Node.dir files) =>
          files.foldl (fun c' fp => cacheInsert c' fp (fs.mtime fp)) c)
    []

/-- `FileDetector.__init__`: `watch_paths or ["."]` (a `None` argument and
an empty list both fall back to the current directory), empty cache, then
`_initialize_cache`. -/
def mkFileDetector (fs : FS) (watch_paths : Option (List String)) : FileDetector :=
  let wp := match watch_paths with
    | none => ["."]
    | some l => if l.isEmpty then ["."] else l
  { name := "file_detector", enabled := true, last_detection_time := none,
    watch_paths := wp, file_cache := initialize_cache fs wp }

/-- The body of the per-file check in `FileDetector.detect`: compare the
current mtime with the cached one, emit a `created`/`modified` event on a
miss/mismatch, and update the cache. -/
def stepFile (fs : FS) (now : Nat) (acc : List Event × List (String × Nat))
    (fp : String) : List Event × List (String × Nat) :=
  let m := fs.mtime fp
  match cacheLookup acc.2 fp with
  | some cm =>
      if cm = m then acc
      else (acc.1 ++ [Event.fileChange fp now "modified"], cacheInsert acc.2 fp m)
  | none => (acc.1 ++ [Event.fileChange fp now "created"], cacheInsert acc.2 fp m)

/-- The file paths one watch path contributes to a `detect` pass:
skipped if non-existent, itself if a file, the walked files that still
exist if a directory (the inner `os.path.exists(file_path)` check). -/
def obsOf (fs : FS) (p : String) : List String :=
  match fs.node p with
  | none => []
  | some Node.file => [p]
  | some (Node.dir files) => files.filter (fun fp => (fs.node fp).isSome)

/-- The two nested loops of `FileDetector.detect` over all watch paths. -/
def detectCore (fs : FS) (now : Nat) (acc : List Event × List (String × Nat))
    (paths : List String) : List Event × List (String × Nat) :=
  paths.foldl (fun a p => (obsOf fs p).foldl (stepFile fs now) a) acc

/-- `FileDetector.detect`: returns `[]` while disabled without touching any
state; otherwise scans the watch paths and finally sets
`last_detection_time` to the current time. -/
def FileDetector.detect (fd : FileDetector) (fs : FS) (now : Nat) :
    List Event × FileDetector :=
  if fd.enabled = false then ([], fd)
  else
    let r := detectCore fs now ([], fd.file_cache) fd.watch_paths
    (r.1, { fd with file_cache := r.2, last_detection_time := some now })

/-- A sequence of `detect` calls on a `FileDetector`, each against its own
filesystem state and clock reading, threading the detector state. -/
def FileDetector.detectSeq (fd : FileDetector) :
    List (FS × Nat) → List (List Event) × FileDetector
  | [] => ([], fd)
  | (fs, t) :: rest =>
      let r := fd.detect fs t
      let s := r.2.detectSeq rest
      (r.1 :: s.1, s.2)

/-- `ProcessDetector` state (`detector.py`, class `ProcessDetector`); the
`_process_cache` set is created in `__init__` and never used. -/
structure ProcessDetector where
  name : String
  enabled : Bool
  last_detection_time : Option Nat
  process_cache : List String

/-- `ProcessDetector.__init__`. -/
def mkProcessDetector : ProcessDetector :=
  { name := "process_detector", enabled := true, last_detection_time := none,
    process_cache := [] }

/-- `ProcessDetector.detect`: `[]` while disabled; otherwise one fixed
informational event, and `last_detection_time` set to the current time. -/
def ProcessDetector.detect (pd : ProcessDetector) (now : Nat) :
    List Event × ProcessDetector :=
  if pd.enabled = false then ([], pd)
  else ([Event.processCheck now "Process monitoring active"],
        { pd with last_detection_time := some now })

/-- A sequence of `detect` calls on a `ProcessDetector`. -/
def ProcessDetector.detectSeq (pd : ProcessDetector) :
    List Nat → List (List Event) × ProcessDetector
  | [] => ([], pd)
  | t :: rest =>
      let r := pd.detect t
      let s := r.2.detectSeq rest
      (r.1 :: s.1, s.2)

/-- A detector as the registry sees it (the `BaseDetector` interface):
a name, an enabled flag, and the behaviour of `detect()` at a given clock
reading — either a list of events (`.ok`) or a raised exception whose
string form is the payload (`.error`). -/
structure BaseDetector where
  name : String
  enabled : Bool
  detectImpl : Nat → Except String (List Event)

/-- `BaseDetector.is_enabled`. -/
def BaseDetector.is_enabled (d : BaseDetector) : Bool := d.enabled

/-- View a `FileDetector` through the registry interface, against a fixed
filesystem (its `detect()` never raises). -/
def FileDetector.toBase (fd : FileDetector) (fs : FS) : BaseDetector :=
  { name := fd.name, enabled := fd.enabled,
    detectImpl := fun now => Except.ok (fd.detect fs now).1 }

/-- View a `ProcessDetector` through the registry interface. -/
def ProcessDetector.toBase (pd : ProcessDetector) : BaseDetector :=
  { name := pd.name, enabled := pd.enabled,
    detectImpl := fun now => Except.ok (pd.detect now).1 }

/-- Dict assignment keyed by detector name, as in
`self.detectors[detector.name] = detector` (overwrite in place, else
append; iteration order is insertion order). -/
def dictInsert : List BaseDetector → BaseDetector → List BaseDetector
  | [], d => [d]
  | d' :: rest, d => if d'.name = d.name then d :: rest else d' :: dictInsert rest d

/-- The coordinator class `Detector` (`detector.py`): the registry of
detectors plus the cumulative `results` history. -/
structure Detector where
  detectors : List BaseDetector
  results : List Event

/-- `Detector.__init__`. -/
def mkDetector : Detector := { detectors := [], results := [] }

/-- `Detector.add_detector`. -/
def Detector.add_detector (reg : Detector) (d : BaseDetector) : Detector :=
  { reg with detectors := dictInsert reg.detectors d }

/-- `Detector.run_all_detections`: iterate the registered detectors; for
each enabled one call `detect()` inside a `try`; on success extend the
aggregate with its events, on an exception append one synthetic
`detection_error` event instead of propagating.  Finally extend the
cumulative history with the aggregate and return it. -/
def Detector.run_all_detections (reg : Detector) (now : Nat) :
    List Event × Detector :=
  let all_results := reg.detectors.foldl
    (fun acc d =>
      if d.is_enabled then
        match d.detectImpl now with
        | Except.ok results => acc ++ results
        | Except.error e => acc ++ [Event.detectionError d.name e now]
      else acc)
    []
  (all_results, { reg with results := reg.results ++ all_results })

/-- `Detector.get_detection_history` (returns a copy; a pure value here). -/
def Detector.get_detection_history (reg : Detector) : List Event := reg.results

/-- `Detector.clear_history`. -/
def Detector.clear_history (reg : Detector) : Detector :=
  { reg with results := [] }

/-- What one registered detector contributes to one `run_all_detections`
aggregate: nothing if disabled, its events if `detect()` returns, and
exactly one `detection_error` event naming it if `detect()` raises. -/
def detectorContribution (now : Nat) (d : BaseDetector) : List Event :=
  if d.is_enabled then
    match d.detectImpl now with
    | Except.ok results => results
    | Except.error e => [Event.detectionError d.name e now]
  else []

/-- Run `run_all_detections` once per clock reading in the list, threading
the registry; returns the final registry and the individual batches. -/
def Detector.runSeq (reg : Detector) : List Nat → Detector × List (List Event)
  | [] => (reg, [])
  | t :: ts =>
      let r := reg.run_all_detections t
      let s := r.2.runSeq ts
      (s.1, r.1 :: s.2)

/-- The configuration keys of `Config.DEFAULT_CONFIG`, with the defaults
as field defaults (`config.py`). -/
structure Config where
  detection_interval : Nat := 30
  max_threads : Nat := 4
  log_level : String := "INFO"
  output_format : String := "json"
  enabled_detectors : List String := ["file", "network", "process"]

/-- A registered callback: an identity (its position of registration is
enough to distinguish it) and the behaviour of calling it on a result
list — `.error` means the callback raises. -/
structure Callback where
  id : Nat
  run : List Event → Except String Unit

/-- `DetectionAgent._notify_callbacks`: call every registered callback, in
order, with the results, each call inside its own `try`; an exception is
logged and does not stop the remaining callbacks.  We return the trace of
invocations: which callback was called with which argument. -/
def notify_callbacks : List Callback → List Event → List (Nat × List Event)
  | [], _ => []
  | cb :: rest, results =>
      match cb.run results with
      | Except.ok _ => (cb.id, results) :: notify_callbacks rest results
      | Except.error _ => (cb.id, results) :: notify_callbacks rest results

/-- `DetectionAgent` state (`agent.py`): the registry, the callback list,
the running flag and the background thread.  The thread is modelled by an
identity number so that "the existing background loop is unchanged" is
observable; `nextThreadId` supplies fresh identities. -/
structure DetectionAgent where
  config : Config
  detector : Detector
  running : Bool
  thread : Option Nat
  nextThreadId : Nat
  callbacks : List Callback

/-- `DetectionAgent._initialize_detectors`: add a `FileDetector` (default
watch paths) if `"file"` is in `enabled_detectors`, and a
`ProcessDetector` if `"process"` is; no other tag adds anything. -/
def initialize_detectors (fs : FS) (cfg : Config) (reg : Detector) : Detector :=
  let reg1 := if "file" ∈ cfg.enabled_detectors then
      reg.add_detector ((mkFileDetector fs none).toBase fs)
    else reg
  if "process" ∈ cfg.enabled_detectors then
    reg1.add_detector mkProcessDetector.toBase
  else reg1

/-- `DetectionAgent.__init__`: default config when none is given, a fresh
registry, not running, no thread, no callbacks, then
`_initialize_detectors`. -/
def mkDetectionAgent (fs : FS) (config : Option Config) : DetectionAgent :=
  let cfg := config.getD {}
  { config := cfg, detector := initialize_detectors fs cfg mkDetector,
    running := false, thread := none, nextThreadId := 0, callbacks := [] }

/-- `DetectionAgent.add_callback`. -/
def DetectionAgent.add_callback (a : DetectionAgent) (cb : Callback) :
    DetectionAgent :=
  { a with callbacks := a.callbacks ++ [cb] }

/-- `DetectionAgent.run_single_detection`: run the registry once; if the
result list is non-empty, notify the callbacks with it; return the results
(and, in the model, the callback-invocation trace). -/
def DetectionAgent.run_single_detection (a : DetectionAgent) (now : Nat) :
    (List Event × List (Nat × List Event)) × DetectionAgent :=
  let r := a.detector.run_all_detections now
  let trace := if r.1.isEmpty then [] else notify_callbacks a.callbacks r.1
  ((r.1, trace), { a with detector := r.2 })

/-- `DetectionAgent.start`: no-op when already running; otherwise set the
flag and launch one fresh background loop. -/
def DetectionAgent.start (a : DetectionAgent) : DetectionAgent :=
  if a.running then a
  else
    { a with running := true, thread := some a.nextThreadId,
             nextThreadId := a.nextThreadId + 1 }

/-- `DetectionAgent.stop`: no-op when not running; otherwise clear the flag
(and join the thread, which keeps its identity recorded). -/
def DetectionAgent.stop (a : DetectionAgent) : DetectionAgent :=
  if a.running = false then a else { a with running := false }

/-- `DetectionAgent.is_running`. -/
def DetectionAgent.is_running (a : DetectionAgent) : Bool := a.running

/-! ### Helper lemmas -/

theorem run_all_foldl_eq (now : Nat) (dets : List BaseDetector) (acc : List Event) :
    dets.foldl
      (fun acc d =>
        if d.is_enabled then
          match d.detectImpl now with
          | Except.ok results => acc ++ results
          | Except.error e => acc ++ [Event.detectionError d.name e now]
        else acc)
      acc
    = acc ++ dets.flatMap (detectorContribution now) := by
  induction dets generalizing acc with
  | nil => simp
  | cons d rest ih =>
      rw [List.foldl_cons, ih, List.flatMap_cons, ← List.append_assoc]
      congr 1
      unfold detectorContribution
      by_cases hd : d.is_enabled
      · simp only [if_pos hd]
        cases d.detectImpl now <;> simp
      · simp [hd]

theorem runSeq_results (ts : List Nat) : ∀ reg : Detector,
    ((reg.runSeq ts).1).results = reg.results ++ ((reg.runSeq ts).2).flatten := by
  induction ts with
  | nil => intro reg; simp [Detector.runSeq]
  | cons t ts ih =>
      intro reg
      simp only [Detector.runSeq, List.flatten]
      rw [ih]
      have h2 : ((reg.run_all_detections t).2).results
          = reg.results ++ (reg.run_all_detections t).1 := rfl
      rw [h2, List.append_assoc]

theorem notify_callbacks_all (cbs : List Callback) (results : List Event) :
    notify_callbacks cbs results = cbs.map (fun cb => (cb.id, results)) := by
  induction cbs with
  | nil => rfl
  | cons cb rest ih =>
      cases h : cb.run results <;> simp [notify_callbacks, h, ih]

/-! ### Claim theorems: registry and agent dispatch -/

/-- C1: `run_all_detections` never propagates an exception raised inside a
detector's `detect()`: its aggregate is exactly the concatenation of the
per-detector contributions, where an enabled detector whose `detect()`
raises contributes exactly the one synthetic `detection_error` event
carrying its name and the stringified exception, an enabled detector whose
`detect()` returns contributes exactly its events, and a disabled detector
contributes nothing — so each detector's contribution is unaffected by any
other detector's failure. -/
theorem run_all_detections_isolates_failures (reg : Detector) (now : Nat) :
    (reg.run_all_detections now).1
      = reg.detectors.flatMap (detectorContribution now) := by
  show reg.detectors.foldl _ [] = _
  rw [run_all_foldl_eq, List.nil_append]

/-- C3: each `run_all_detections` call appends exactly its returned batch
to the cumulative history — after a sequence of runs the history is the
previous history followed by the concatenation of the returned batches —
and `clear_history` unconditionally empties the history. -/
theorem run_all_detections_history (reg : Detector) (ts : List Nat) :
    ((reg.runSeq ts).1).results = reg.results ++ ((reg.runSeq ts).2).flatten
    ∧ (Detector.clear_history reg).results = [] :=
  ⟨runSeq_results ts reg, rfl⟩

/-- C4: `run_single_detection` notifies every registered callback, in
registration order, with the full result set exactly when the result set
is non-empty (the invocation trace lists every callback paired with the
full result set, raising callbacks included, so a raising callback stops
neither the remaining callbacks nor the returned result), and the events
returned to the caller are exactly the registry's aggregate, independent
of the callbacks. -/
theorem run_single_detection_notifies (a : DetectionAgent) (now : Nat) :
    ((a.run_single_detection now).1.2
      = if ((a.run_single_detection now).1.1).isEmpty then []
        else a.callbacks.map (fun cb => (cb.id, (a.run_single_detection now).1.1)))
    ∧ (a.run_single_detection now).1.1 = (a.detector.run_all_detections now).1 := by
  refine ⟨?_, rfl⟩
  have hr : (a.run_single_detection now).1.1
      = (a.detector.run_all_detections now).1 := rfl
  have ht : (a.run_single_detection now).1.2
      = if ((a.detector.run_all_detections now).1).isEmpty then []
        else notify_callbacks a.callbacks (a.detector.run_all_detections now).1 := rfl
  rw [ht, hr]
  by_cases h : ((a.detector.run_all_detections now).1).isEmpty
  · rw [if_pos h, if_pos h]
  · rw [if_neg h, if_neg h, notify_callbacks_all]

/-! ### Claim theorems: detector state discipline -/

/-- C7: every `detect()` call on an enabled detector — `FileDetector` or
`ProcessDetector` — sets `last_detection_time` to the current time, also
when it returns zero events. -/
theorem detect_updates_last_detection_time (fd : FileDetector) (fs : FS)
    (pd : ProcessDetector) (t u : Nat)
    (hf : fd.enabled = true) (hp : pd.enabled = true) :
    ((fd.detect fs t).2).last_detection_time = some t
    ∧ ((pd.detect u).2).last_detection_time = some u := by
  constructor
  · simp [FileDetector.detect, hf]
  · simp [ProcessDetector.detect, hp]

/-- An empty filesystem: no path exists. -/
def fsEmpty : FS := { node := fun _ => none, mtime := fun _ => 0 }

/-- Witness for C7 at a concrete enabled `FileDetector` and
`ProcessDetector`. -/
theorem detect_updates_last_detection_time_witness :
    (mkFileDetector fsEmpty (some ["w"])).enabled = true
    ∧ mkProcessDetector.enabled = true
    ∧ (((mkFileDetector fsEmpty (some ["w"])).detect fsEmpty 7).2).last_detection_time
        = some 7
    ∧ ((mkProcessDetector.detect 9).2).last_detection_time = some 9 := by
  refine ⟨rfl, rfl, ?_⟩
  exact detect_updates_last_detection_time (mkFileDetector fsEmpty (some ["w"]))
    fsEmpty mkProcessDetector 7 9 rfl rfl

/-- C2: a disabled `FileDetector` or `ProcessDetector` returns the empty
event list on every `detect()` call of an arbitrary call sequence and its
whole state — in particular `last_detection_time` and the file cache — is
left unchanged. -/
theorem disabled_detect_is_noop (fd : FileDetector) (pd : ProcessDetector)
    (ins : List (FS × Nat)) (ts : List Nat)
    (hf : fd.enabled = false) (hp : pd.enabled = false) :
    fd.detectSeq ins = (ins.map (fun _ => []), fd)
    ∧ pd.detectSeq ts = (ts.map (fun _ => []), pd) := by
  constructor
  · induction ins with
    | nil => rfl
    | cons i rest ih =>
        obtain ⟨fs, t⟩ := i
        have h1 : fd.detect fs t = ([], fd) := by
          simp [FileDetector.detect, hf]
        simp [FileDetector.detectSeq, h1, ih]
  · induction ts with
    | nil => rfl
    | cons t rest ih =>
        have h1 : pd.detect t = ([], pd) := by
          simp [ProcessDetector.detect, hp]
        simp [ProcessDetector.detectSeq, h1, ih]

/-- A concrete disabled `FileDetector`. -/
def disabledFileDetector : FileDetector :=
  { mkFileDetector fsEmpty none with enabled := false }

/-- A concrete disabled `ProcessDetector`. -/
def disabledProcessDetector : ProcessDetector :=
  { mkProcessDetector with enabled := false }

/-- Witness for C2 at concrete disabled detectors over a two-call
sequence. -/
theorem disabled_detect_is_noop_witness :
    disabledFileDetector.enabled = false
    ∧ disabledProcessDetector.enabled = false
    ∧ disabledFileDetector.detectSeq [(fsEmpty, 1), (fsEmpty, 2)]
        = ([[], []], disabledFileDetector)
    ∧ disabledProcessDetector.detectSeq [3, 4]
        = ([[], []], disabledProcessDetector) := by
  refine ⟨rfl, rfl, ?_⟩
  have h := disabled_detect_is_noop disabledFileDetector disabledProcessDetector
    [(fsEmpty, 1), (fsEmpty, 2)] [3, 4] rfl rfl
  exact ⟨h.1, h.2⟩

/-- Processing a batch of watch paths none of which exists leaves the
event/cache accumulator untouched. -/
theorem detectCore_nonexistent (fs : FS) (t : Nat) :
    ∀ (paths : List String), (∀ p ∈ paths, fs.node p = none) →
      ∀ acc, detectCore fs t acc paths = acc := by
  intro paths
  induction paths with
  | nil => intro _ acc; rfl
  | cons p rest ih =>
      intro h acc
      have hobs : obsOf fs p = [] := by
        simp [obsOf, h p (List.mem_cons_self p rest)]
      show detectCore fs t acc (p :: rest) = acc
      simp only [detectCore, List.foldl_cons, hobs, List.foldl_nil]
      have hih := ih (fun q hq => h q (List.mem_cons_of_mem p hq)) acc
      simpa [detectCore] using hih

/-- C9: a `FileDetector` none of whose watch paths exists raises no error:
over an arbitrary sequence of `detect()` calls every call returns zero
events and the file cache never changes. -/
theorem nonexistent_paths_detect_empty (fd : FileDetector)
    (ins : List (FS × Nat))
    (h : ∀ i ∈ ins, ∀ p ∈ fd.watch_paths, i.1.node p = none) :
    (fd.detectSeq ins).1 = ins.map (fun _ => [])
    ∧ ((fd.detectSeq ins).2).file_cache = fd.file_cache := by
  induction ins generalizing fd with
  | nil => exact ⟨rfl, rfl⟩
  | cons i rest ih =>
      obtain ⟨fs, t⟩ := i
      have hmiss : ∀ p ∈ fd.watch_paths, fs.node p = none :=
        h (fs, t) (List.mem_cons_self _ _)
      have h1 : (fd.detect fs t).1 = []
          ∧ ((fd.detect fs t).2).file_cache = fd.file_cache
          ∧ ((fd.detect fs t).2).watch_paths = fd.watch_paths := by
        by_cases he : fd.enabled = false
        · simp [FileDetector.detect, he]
        · have hcore := detectCore_nonexistent fs t fd.watch_paths hmiss
            ([], fd.file_cache)
          simp [FileDetector.detect, he, hcore]
      have hrest := ih (fd.detect fs t).2
        (fun j hj p hp => h j (List.mem_cons_of_mem _ hj) p (h1.2.2 ▸ hp))
      constructor
      · show (fd.detect fs t).1 :: (((fd.detect fs t).2).detectSeq rest).1 = _
        rw [h1.1, hrest.1]
        rfl
      · show ((((fd.detect fs t).2).detectSeq rest).2).file_cache = _
        rw [hrest.2, h1.2.1]

/-- A concrete `FileDetector` watching a single path that does not exist
in `fsEmpty`. -/
def missingPathDetector : FileDetector :=
  mkFileDetector fsEmpty (some ["/nope"])

/-- Witness for C9: two `detect()` calls against the empty filesystem. -/
theorem nonexistent_paths_detect_empty_witness :
    (missingPathDetector.detectSeq [(fsEmpty, 1), (fsEmpty, 2)]).1 = [[], []]
    ∧ ((missingPathDetector.detectSeq [(fsEmpty, 1), (fsEmpty, 2)]).2).file_cache
        = missingPathDetector.file_cache := by
  have h := nonexistent_paths_detect_empty missingPathDetector
    [(fsEmpty, 1), (fsEmpty, 2)]
    (fun i hi p _ => by
      rcases List.mem_cons.mp hi with h1 | h1
      · subst h1; rfl
      · rcases List.mem_cons.mp h1 with h2 | h2
        · subst h2; rfl
        · simp at h2)
  exact h

/-! ### Claim theorems: agent lifecycle and wiring -/

/-- C8: `start()` on a running agent is a no-op — the whole agent state,
the running flag and the background-loop identity included, is unchanged —
and `stop()` on a non-running agent is a no-op that leaves `is_running()`
false. -/
theorem start_stop_idempotent (a b : DetectionAgent)
    (ha : a.running = true) (hb : b.running = false) :
    a.start = a ∧ a.start.thread = a.thread
    ∧ b.stop = b ∧ (b.stop).is_running = false := by
  have hs : a.start = a := by simp [DetectionAgent.start, ha]
  have ht : b.stop = b := by simp [DetectionAgent.stop, hb]
  exact ⟨hs, by rw [hs], ht, by rw [ht]; exact hb⟩

/-- A concrete running agent (a fresh default agent, started once). -/
def runningAgent : DetectionAgent := (mkDetectionAgent fsEmpty none).start

/-- A concrete non-running agent. -/
def stoppedAgent : DetectionAgent := mkDetectionAgent fsEmpty none

/-- Witness for C8 at a concrete running agent and a concrete non-running
agent. -/
theorem start_stop_idempotent_witness :
    runningAgent.running = true
    ∧ stoppedAgent.running = false
    ∧ runningAgent.start = runningAgent
    ∧ runningAgent.start.thread = runningAgent.thread
    ∧ stoppedAgent.stop = stoppedAgent
    ∧ (stoppedAgent.stop).is_running = false := by
  refine ⟨rfl, rfl, ?_⟩
  have h := start_stop_idempotent runningAgent stoppedAgent rfl rfl
  exact ⟨h.1, h.2.1, h.2.2.1, h.2.2.2⟩

/-- C10: an agent constructed with the default configuration registers
exactly two detectors, named `file_detector` and `process_detector`; the
`network` tag in the default `enabled_detectors` list adds no detector. -/
theorem default_agent_registers_two_detectors (fs : FS) :
    ((mkDetectionAgent fs none).detector.detectors).map (fun d => d.name)
      = ["file_detector", "process_detector"] := rfl

/-! ### FileDetector cache/diff lemmas -/

theorem cacheLookup_stepFile (fs : FS) (now : Nat)
    (acc : List Event × List (String × Nat)) (q p : String) :
    cacheLookup ((stepFile fs now acc q).2) p
      = if q = p then some (fs.mtime q) else cacheLookup acc.2 p := by
  unfold stepFile
  cases h : cacheLookup acc.2 q with
  | none =>
      simp only [cacheLookup_cacheInsert]
  | some cm =>
      by_cases hcm : cm = fs.mtime q
      · simp only [if_pos hcm]
        by_cases hqp : q = p
        · subst hqp
          rw [if_pos rfl, h, hcm]
        · rw [if_neg hqp]
      · simp only [if_neg hcm, cacheLookup_cacheInsert]

theorem foldl_stepFile_preserve (fs : FS) (now : Nat) (obs : List String) :
    ∀ acc p, cacheLookup acc.2 p = some (fs.mtime p) →
      cacheLookup ((obs.foldl (stepFile fs now) acc).2) p = some (fs.mtime p) := by
  induction obs with
  | nil => intro acc p h; exact h
  | cons q rest ih =>
      intro acc p h
      rw [List.foldl_cons]
      apply ih
      rw [cacheLookup_stepFile]
      by_cases hq : q = p
      · subst hq; rw [if_pos rfl]
      · rw [if_neg hq]; exact h

theorem foldl_stepFile_covers (fs : FS) (now : Nat) (obs : List String) :
    ∀ acc, ∀ p ∈ obs,
      cacheLookup ((obs.foldl (stepFile fs now) acc).2) p = some (fs.mtime p) := by
  induction obs with
  | nil => intro acc p hp; cases hp
  | cons q rest ih =>
      intro acc p hp
      rw [List.foldl_cons]
      rcases List.mem_cons.mp hp with h | h
      · subst h
        apply foldl_stepFile_preserve
        rw [cacheLookup_stepFile, if_pos rfl]
      · exact ih _ p h

theorem foldl_stepFile_noop (fs : FS) (now : Nat) (obs : List String) :
    ∀ (evs : List Event) (c : List (String × Nat)),
      (∀ p ∈ obs, cacheLookup c p = some (fs.mtime p)) →
      obs.foldl (stepFile fs now) (evs, c) = (evs, c) := by
  induction obs with
  | nil => intro evs c _; rfl
  | cons q rest ih =>
      intro evs c h
      have hq := h q (List.mem_cons_self q rest)
      have hstep : stepFile fs now (evs, c) q = (evs, c) := by
        simp [stepFile, hq]
      rw [List.foldl_cons, hstep]
      exact ih evs c (fun p hp => h p (List.mem_cons_of_mem _ hp))

theorem detectCore_eq_foldl (fs : FS) (now : Nat) (paths : List String)
    (acc : List Event × List (String × Nat)) :
    detectCore fs now acc paths
      = (paths.flatMap (obsOf fs)).foldl (stepFile fs now) acc := by
  induction paths generalizing acc with
  | nil => rfl
  | cons p rest ih =>
      show detectCore fs now acc (p :: rest) = _
      simp only [detectCore, List.foldl_cons, List.flatMap_cons, List.foldl_append]
      exact ih _

theorem cacheLookup_foldl_insert (g : String → Nat) (files : List String) :
    ∀ (c : List (String × Nat)) (p : String),
      cacheLookup (files.foldl (fun c' fp => cacheInsert c' fp (g fp)) c) p
        = if p ∈ files then some (g p) else cacheLookup c p := by
  induction files with
  | nil => intro c p; simp
  | cons q rest ih =>
      intro c p
      rw [List.foldl_cons, ih]
      by_cases hp : p ∈ rest
      · rw [if_pos hp, if_pos (List.mem_cons_of_mem q hp)]
      · rw [if_neg hp, cacheLookup_cacheInsert]
        by_cases hq : q = p
        · subst hq
          rw [if_pos rfl, if_pos (List.mem_cons_self q rest)]
        · rw [if_neg hq, if_neg (fun hmem => by
            rcases List.mem_cons.mp hmem with h | h
            · exact hq h.symm
            · exact hp h)]

/-! ### Claim theorems: FileDetector diffing -/

/-- C6: two consecutive `detect()` calls on any `FileDetector` against the
same filesystem state yield zero events on the second call — the first
call leaves the cache agreeing with every observed mtime. -/
theorem detect_idempotent (fd : FileDetector) (fs : FS) (t1 t2 : Nat) :
    ((((fd.detect fs t1).2).detect fs t2)).1 = [] := by
  cases he : fd.enabled with
  | false => simp [FileDetector.detect, he]
  | true =>
      have hne : ¬(fd.enabled = false) := by simp [he]
      set fd1 := (fd.detect fs t1).2 with hdef1
      have hstate : fd1 = { fd with
          file_cache := (detectCore fs t1 ([], fd.file_cache) fd.watch_paths).2,
          last_detection_time := some t1 } := by
        rw [hdef1]; simp [FileDetector.detect, hne]
      have hne1 : ¬(fd1.enabled = false) := by rw [hstate]; exact hne
      have hwp : fd1.watch_paths = fd.watch_paths := by rw [hstate]
      have hcov : ∀ p ∈ fd.watch_paths.flatMap (obsOf fs),
          cacheLookup fd1.file_cache p = some (fs.mtime p) := by
        intro p hp
        rw [hstate]
        show cacheLookup (detectCore fs t1 ([], fd.file_cache) fd.watch_paths).2 p
          = some (fs.mtime p)
        rw [detectCore_eq_foldl]
        exact foldl_stepFile_covers fs t1 _ _ p hp
      have hnoop := foldl_stepFile_noop fs t2 (fd.watch_paths.flatMap (obsOf fs))
        [] fd1.file_cache hcov
      have hproj : (fd1.detect fs t2).1
          = (detectCore fs t2 ([], fd1.file_cache) fd1.watch_paths).1 := by
        rw [FileDetector.detect, if_neg hne1]
      rw [hproj, hwp, detectCore_eq_foldl, hnoop]

/-- C5: a `FileDetector` constructed over a directory of pre-existing
files absorbs them into the baseline snapshot: the first `detect()` with
no intervening filesystem change emits no events at all (in particular no
`created` event for any pre-existing file), and after exactly one new
file appears under the watched directory the next `detect()` emits exactly
one `created` event for that file's path. -/
theorem cold_start_baseline (fs fs' : FS) (d newf : String)
    (files : List String) (t1 t2 : Nat)
    (h1 : fs.node d = some (Node.dir files))
    (h2 : ∀ fp ∈ files, (fs.node fp).isSome)
    (h3 : fs'.node d = some (Node.dir (files ++ [newf])))
    (h4 : ∀ fp ∈ files, (fs'.node fp).isSome ∧ fs'.mtime fp = fs.mtime fp)
    (h5 : (fs'.node newf).isSome)
    (h6 : newf ∉ files) :
    ((mkFileDetector fs (some [d])).detect fs t1).1 = []
    ∧ ((((mkFileDetector fs (some [d])).detect fs t1).2).detect fs' t2).1
        = [Event.fileChange newf t2 "created"] := by
  set fd0 := mkFileDetector fs (some [d]) with hdef0
  have hwp0 : fd0.watch_paths = [d] := by rw [hdef0]; rfl
  have hen0 : fd0.enabled = true := by rw [hdef0]; rfl
  have hne0 : ¬(fd0.enabled = false) := by simp [hen0]
  have hcache0 : fd0.file_cache
      = files.foldl (fun c' fp => cacheInsert c' fp (fs.mtime fp)) [] := by
    rw [hdef0]
    show initialize_cache fs [d] = _
    simp only [initialize_cache, List.foldl_cons, List.foldl_nil, h1]
  have hobs : obsOf fs d = files := by
    simp only [obsOf, h1]
    exact List.filter_eq_self.mpr (fun fp hfp => h2 fp hfp)
  have hcov0 : ∀ p ∈ files, cacheLookup fd0.file_cache p = some (fs.mtime p) := by
    intro p hp
    rw [hcache0, cacheLookup_foldl_insert, if_pos hp]
  have hflat : [d].flatMap (obsOf fs) = files := by
    simp [hobs]
  have hcore1 : detectCore fs t1 ([], fd0.file_cache) fd0.watch_paths
      = ([], fd0.file_cache) := by
    rw [hwp0, detectCore_eq_foldl, hflat]
    exact foldl_stepFile_noop fs t1 files [] fd0.file_cache hcov0
  have hfirst : (fd0.detect fs t1).1 = [] := by
    rw [FileDetector.detect, if_neg hne0]
    show (detectCore fs t1 ([], fd0.file_cache) fd0.watch_paths).1 = []
    rw [hcore1]
  refine ⟨hfirst, ?_⟩
  set fd1 := (fd0.detect fs t1).2 with hdef1
  have hstate1 : fd1 = { fd0 with
      file_cache := (detectCore fs t1 ([], fd0.file_cache) fd0.watch_paths).2,
      last_detection_time := some t1 } := by
    rw [hdef1]; simp [FileDetector.detect, hne0]
  have hcache1 : fd1.file_cache = fd0.file_cache := by
    rw [hstate1]
    show (detectCore fs t1 ([], fd0.file_cache) fd0.watch_paths).2 = _
    rw [hcore1]
  have hne1 : ¬(fd1.enabled = false) := by
    rw [hstate1]; exact hne0
  have hwp1 : fd1.watch_paths = [d] := by
    rw [hstate1]; exact hwp0
  have hobs' : obsOf fs' d = files ++ [newf] := by
    simp only [obsOf, h3]
    refine List.filter_eq_self.mpr ?_
    intro fp hfp
    rcases List.mem_append.mp hfp with hf | hf
    · exact (h4 fp hf).1
    · rw [List.mem_singleton] at hf
      subst hf
      exact h5
  have hcov' : ∀ p ∈ files, cacheLookup fd1.file_cache p = some (fs'.mtime p) := by
    intro p hp
    rw [hcache1, (h4 p hp).2]
    exact hcov0 p hp
  have hlooknew : cacheLookup fd1.file_cache newf = none := by
    rw [hcache1, hcache0, cacheLookup_foldl_insert, if_neg h6]
    rfl
  have hstepnew : stepFile fs' t2 ([], fd1.file_cache) newf
      = ([Event.fileChange newf t2 "created"],
         cacheInsert fd1.file_cache newf (fs'.mtime newf)) := by
    simp [stepFile, hlooknew]
  have hflat' : [d].flatMap (obsOf fs') = files ++ [newf] := by
    simp [hobs']
  rw [FileDetector.detect, if_neg hne1]
  show (detectCore fs' t2 ([], fd1.file_cache) fd1.watch_paths).1
    = [Event.fileChange newf t2 "created"]
  rw [hwp1, detectCore_eq_foldl, hflat', List.foldl_append,
      foldl_stepFile_noop fs' t2 files [] fd1.file_cache hcov']
  show (stepFile fs' t2 ([], fd1.file_cache) newf).1 = _
  rw [hstepnew]

/-- The concrete "before" filesystem for the C5 witness: directory `d`
holding files `a` and `b`. -/
def fsBefore : FS :=
  { node := fun s =>
      if s = "d" then some (Node.dir ["a", "b"])
      else if s = "a" then some Node.file
      else if s = "b" then some Node.file
      else none,
    mtime := fun _ => 5 }

/-- The concrete "after" filesystem for the C5 witness: directory `d` now
also holds the new file `c`; the old files keep their mtimes. -/
def fsAfter : FS :=
  { node := fun s =>
      if s = "d" then some (Node.dir ["a", "b", "c"])
      else if s = "a" then some Node.file
      else if s = "b" then some Node.file
      else if s = "c" then some Node.file
      else none,
    mtime := fun _ => 5 }

/-- Witness for C5: two pre-existing files, then one file created. -/
theorem cold_start_baseline_witness :
    ((mkFileDetector fsBefore (some ["d"])).detect fsBefore 1).1 = []
    ∧ ((((mkFileDetector fsBefore (some ["d"])).detect fsBefore 1).2).detect
        fsAfter 2).1 = [Event.fileChange "c" 2 "created"] := by
  have h := cold_start_baseline fsBefore fsAfter "d" "c" ["a", "b"] 1 2
    (by rfl)
    (by decide)
    (by rfl)
    (by decide)
    (by decide)
    (by decide)
  exact h

end DetectionAgentModel
